import Mathlib

/-!
Verification development for the GPU sizing and recommendation engine of the
brev-launcher repository.  The Python modules `pricing.py`, `pricing_advanced.py`
and `detect.py` are shallowly embedded as executable Lean definitions over exact
rational arithmetic, and the specification's claims about them are settled as
theorems below.
-/

attribute [local semireducible] Rat.ofScientific Rat.mul Rat.inv Rat.add Rat.sub

namespace BrevLauncher

/-- Embedding of the `BrevInstance` TypedDict of `pricing_advanced.py`:
one priced hardware offering of the advanced catalog. -/
structure BrevInstance where
  gpu_model : String
  gpus : Nat
  vram_per_gpu_gib : ℚ
  total_vram_gib : ℚ
  provider : String
  price_per_hour : ℚ
  cost_efficiency : ℚ
deriving DecidableEq

set_option maxHeartbeats 2000000 in
/-- Embedding of the static `BREV_INSTANCES` catalog of `pricing_advanced.py`
(entries transcribed in source order). -/
def BREV_INSTANCES : List BrevInstance := [
  ⟨"B300", 1, 288, 288, "DATACRUNCH", 7.91, 36.41⟩,
  ⟨"B300", 2, 288, 576, "DATACRUNCH", 13.85, 41.59⟩,
  ⟨"B300", 4, 288, 1152, "DATACRUNCH", 25.73, 44.77⟩,
  ⟨"B300", 8, 288, 2304, "DATACRUNCH", 49.49, 46.55⟩,
  ⟨"B200", 1, 180, 180, "LAMBDA-LABS", 6.35, 28.35⟩,
  ⟨"B200", 1, 192, 192, "DATACRUNCH", 6.76, 28.40⟩,
  ⟨"B200", 2, 192, 384, "DATACRUNCH", 11.54, 33.28⟩,
  ⟨"B200", 2, 180, 360, "LAMBDA-LABS", 12.46, 28.89⟩,
  ⟨"B200", 4, 192, 768, "DATACRUNCH", 21.12, 36.36⟩,
  ⟨"B200", 8, 192, 1536, "BOOSTRUN", 38.40, 40.00⟩,
  ⟨"B200", 8, 192, 1536, "DATACRUNCH", 40.27, 38.15⟩,
  ⟨"RTX PRO 6000", 1, 96, 96, "MASSEDCOMPUTE", 2.15, 44.65⟩,
  ⟨"RTX PRO 6000", 2, 96, 192, "MASSEDCOMPUTE", 4.30, 44.65⟩,
  ⟨"RTX PRO 6000", 4, 96, 384, "MASSEDCOMPUTE", 8.59, 44.70⟩,
  ⟨"RTX PRO 6000", 8, 96, 768, "BOOSTRUN", 11.62, 66.09⟩,
  ⟨"RTX PRO 6000", 8, 96, 768, "MASSEDCOMPUTE", 17.18, 44.70⟩,
  ⟨"H200", 1, 141, 141, "DIGITALOCEAN", 4.13, 34.14⟩,
  ⟨"H200", 1, 141, 141, "DATACRUNCH", 5.08, 27.76⟩,
  ⟨"H200", 2, 141, 282, "DATACRUNCH", 8.18, 34.47⟩,
  ⟨"H200", 4, 141, 564, "DATACRUNCH", 14.40, 39.17⟩,
  ⟨"H200", 8, 141, 1128, "BOOSTRUN", 23.52, 47.96⟩,
  ⟨"H200", 8, 141, 1128, "DATACRUNCH", 26.83, 42.05⟩,
  ⟨"H200", 8, 141, 1128, "DIGITALOCEAN", 33.02, 34.16⟩,
  ⟨"H100", 1, 80, 80, "HYPERSTACK", 2.28, 35.09⟩,
  ⟨"H100", 1, 80, 80, "VOLTAGEPARK", 2.39, 33.47⟩,
  ⟨"H100", 1, 80, 80, "DATACRUNCH", 2.71, 29.52⟩,
  ⟨"H100", 1, 80, 80, "IMWT", 2.98, 26.85⟩,
  ⟨"H100", 1, 80, 80, "LAMBDA-LABS", 2.99, 26.76⟩,
  ⟨"H100", 1, 80, 80, "CUDA", 3.18, 25.16⟩,
  ⟨"H100", 1, 80, 80, "MASSEDCOMPUTE", 3.58, 22.35⟩,
  ⟨"H100", 1, 80, 80, "SCALEWAY", 3.70, 21.62⟩,
  ⟨"H100", 1, 80, 80, "DIGITALOCEAN", 4.01, 19.95⟩,
  ⟨"H100", 2, 80, 160, "HYPERSTACK", 4.56, 35.09⟩,
  ⟨"H100", 2, 80, 160, "VOLTAGEPARK", 4.78, 33.47⟩,
  ⟨"H100", 2, 80, 160, "IMWT", 5.95, 26.89⟩,
  ⟨"H100", 2, 80, 160, "MASSEDCOMPUTE", 7.15, 22.38⟩,
  ⟨"H100", 4, 80, 320, "HYPERSTACK", 9.12, 35.09⟩,
  ⟨"H100", 4, 80, 320, "VOLTAGEPARK", 9.55, 33.51⟩,
  ⟨"H100", 4, 80, 320, "IMWT", 11.90, 26.89⟩,
  ⟨"H100", 4, 80, 320, "MASSEDCOMPUTE", 14.30, 22.38⟩,
  ⟨"H100", 4, 80, 320, "LAMBDA-LABS", 14.83, 21.58⟩,
  ⟨"H100", 8, 80, 640, "HYPERSTACK", 18.24, 35.09⟩,
  ⟨"H100", 8, 80, 640, "VOLTAGEPARK", 19.10, 33.51⟩,
  ⟨"H100", 8, 80, 640, "LAMBDA-LABS", 28.70, 22.30⟩,
  ⟨"H100", 8, 80, 640, "DIGITALOCEAN", 28.70, 22.30⟩,
  ⟨"A100", 1, 80, 80, "MASSEDCOMPUTE", 1.44, 55.56⟩,
  ⟨"A100", 1, 80, 80, "JARVIS-LABS", 1.49, 53.69⟩,
  ⟨"A100", 1, 80, 80, "LAMBDA-LABS", 1.65, 48.48⟩,
  ⟨"A100", 1, 80, 80, "DATACRUNCH", 1.79, 44.69⟩,
  ⟨"A100", 1, 80, 80, "VOLTAGEPARK", 1.99, 40.20⟩,
  ⟨"A100", 1, 40, 40, "DENVI", 1.50, 26.67⟩,
  ⟨"A100", 1, 40, 40, "LAMBDA-LABS", 1.55, 25.81⟩,
  ⟨"A100", 1, 40, 40, "AWS", 1.77, 22.60⟩,
  ⟨"A100", 1, 40, 40, "DATACRUNCH", 1.89, 21.16⟩,
  ⟨"A100", 2, 80, 160, "MASSEDCOMPUTE", 2.87, 55.75⟩,
  ⟨"A100", 2, 80, 160, "JARVIS-LABS", 2.99, 53.51⟩,
  ⟨"A100", 4, 80, 320, "MASSEDCOMPUTE", 5.75, 55.65⟩,
  ⟨"A100", 8, 80, 640, "MASSEDCOMPUTE", 11.50, 55.65⟩,
  ⟨"L40S", 1, 48, 48, "MASSEDCOMPUTE", 1.19, 40.34⟩,
  ⟨"L40S", 1, 48, 48, "DATACRUNCH", 1.29, 37.21⟩,
  ⟨"L40S", 1, 48, 48, "LAMBDA-LABS", 1.50, 32.00⟩,
  ⟨"L40S", 2, 48, 96, "MASSEDCOMPUTE", 2.39, 40.17⟩,
  ⟨"L40S", 4, 48, 192, "MASSEDCOMPUTE", 4.77, 40.25⟩,
  ⟨"L40S", 8, 48, 384, "MASSEDCOMPUTE", 9.54, 40.25⟩,
  ⟨"A10", 1, 24, 24, "MASSEDCOMPUTE", 0.65, 36.92⟩,
  ⟨"A10", 1, 24, 24, "AWS", 0.77, 31.17⟩,
  ⟨"A10", 1, 24, 24, "LAMBDA-LABS", 0.90, 26.67⟩,
  ⟨"A10", 2, 24, 48, "MASSEDCOMPUTE", 1.29, 37.21⟩,
  ⟨"A10", 4, 24, 96, "MASSEDCOMPUTE", 2.59, 37.07⟩,
  ⟨"A10", 8, 24, 192, "MASSEDCOMPUTE", 5.18, 37.07⟩,
  ⟨"RTX 4090", 1, 24, 24, "MASSEDCOMPUTE", 0.59, 40.68⟩,
  ⟨"RTX 4090", 1, 24, 24, "JARVIS-LABS", 0.69, 34.78⟩,
  ⟨"RTX 4090", 2, 24, 48, "MASSEDCOMPUTE", 1.19, 40.34⟩,
  ⟨"RTX 4090", 4, 24, 96, "MASSEDCOMPUTE", 2.38, 40.34⟩,
  ⟨"RTX 4090", 8, 24, 192, "MASSEDCOMPUTE", 4.76, 40.34⟩,
  ⟨"RTX A6000", 1, 48, 48, "MASSEDCOMPUTE", 0.89, 53.93⟩,
  ⟨"RTX A6000", 1, 48, 48, "AWS", 1.39, 34.53⟩,
  ⟨"RTX A6000", 2, 48, 96, "MASSEDCOMPUTE", 1.79, 53.63⟩,
  ⟨"RTX A6000", 4, 48, 192, "MASSEDCOMPUTE", 3.58, 53.63⟩,
  ⟨"T4", 1, 16, 16, "AWS", 0.40, 40.00⟩,
  ⟨"T4", 1, 16, 16, "GCP", 0.42, 38.10⟩,
  ⟨"T4", 2, 16, 32, "AWS", 0.80, 40.00⟩,
  ⟨"T4", 4, 16, 64, "AWS", 1.60, 40.00⟩,
  ⟨"V100", 1, 16, 16, "MASSEDCOMPUTE", 0.89, 17.98⟩,
  ⟨"V100", 1, 32, 32, "AWS", 1.50, 21.33⟩,
  ⟨"V100", 2, 16, 32, "MASSEDCOMPUTE", 1.79, 17.88⟩]

/-- Embedding of `calculate_monthly_cost` from `pricing.py`. -/
def calculate_monthly_cost (hourly_cost : ℚ) (hours_per_day : ℚ) : ℚ :=
  hourly_cost * hours_per_day * 30

/-- Embedding of `calculate_yearly_cost` from `pricing.py`. -/
def calculate_yearly_cost (hourly_cost : ℚ) (hours_per_day : ℚ) : ℚ :=
  hourly_cost * hours_per_day * 365

/-- Sort key of `recommend_gpu_advanced`: Python sorts the suitable instances by
the tuple `(price_per_hour, -cost_efficiency)`, i.e. ascending price with ties
broken by descending cost efficiency. -/
def advKeyLe (i j : BrevInstance) : Prop :=
  i.price_per_hour < j.price_per_hour ∨
    (i.price_per_hour = j.price_per_hour ∧ j.cost_efficiency ≤ i.cost_efficiency)

instance : DecidableRel advKeyLe := fun i j => by
  unfold advKeyLe; infer_instance

instance : IsTotal BrevInstance advKeyLe := by
  constructor
  intro a b
  rcases lt_trichotomy a.price_per_hour b.price_per_hour with h | h | h
  · exact Or.inl (Or.inl h)
  · rcases le_total b.cost_efficiency a.cost_efficiency with h2 | h2
    · exact Or.inl (Or.inr ⟨h, h2⟩)
    · exact Or.inr (Or.inr ⟨h.symm, h2⟩)
  · exact Or.inr (Or.inl h)

instance : IsTrans BrevInstance advKeyLe := by
  constructor
  intro a b c hab hbc
  rcases hab with hab | ⟨hab, hab2⟩
  · rcases hbc with hbc | ⟨hbc, _⟩
    · exact Or.inl (hab.trans hbc)
    · exact Or.inl (hbc ▸ hab)
  · rcases hbc with hbc | ⟨hbc, hbc2⟩
    · exact Or.inl (hab ▸ hbc)
    · exact Or.inr ⟨hab.trans hbc, hbc2.trans hab2⟩

instance : IsRefl BrevInstance advKeyLe :=
  ⟨fun a => Or.inr ⟨rfl, le_refl _⟩⟩

/-- Instances of the advanced catalog that pass the 20%-buffer VRAM filter:
`instance["total_vram_gib"] >= estimated_vram_gb * 1.2`. -/
def suitableInstances (estimated_vram_gb : ℚ) : List BrevInstance :=
  BREV_INSTANCES.filter fun i => decide (estimated_vram_gb * 1.2 ≤ i.total_vram_gib)

/-- Suitable instances sorted the way `recommend_gpu_advanced` sorts them
(Python's stable sort by `(price, -cost_efficiency)`; insertion sort with the
non-strict total preorder `advKeyLe` is stable in the same sense). -/
def sortedSuitable (estimated_vram_gb : ℚ) : List BrevInstance :=
  List.insertionSort advKeyLe (suitableInstances estimated_vram_gb)

/-- Configuration key used by the alternatives deduplication:
`(gpu_model, gpus, vram_per_gpu_gib)`. -/
def configKey (i : BrevInstance) : String × Nat × ℚ :=
  (i.gpu_model, i.gpus, i.vram_per_gpu_gib)

/-- Embedding of the alternatives-collection loop of `recommend_gpu_advanced`:
walk the remaining sorted candidates, skip configurations already seen, append
otherwise, and stop as soon as `len(alternatives) >= max_results` after an
append. -/
def collectAlternatives (cands : List BrevInstance)
    (seen : List (String × Nat × ℚ)) (acc : List BrevInstance)
    (max_results : Int) : List BrevInstance :=
  match cands with
  | [] => acc
  | c :: rest =>
    if configKey c ∈ seen then
      collectAlternatives rest seen acc max_results
    else
      let acc2 := acc ++ [c]
      if max_results ≤ (acc2.length : Int) then acc2
      else collectAlternatives rest (configKey c :: seen) acc2 max_results

/-- Embedding of the savings record computed by `recommend_gpu_advanced`. -/
structure Savings where
  hourly : ℚ
  monthly : ℚ
  yearly : ℚ
deriving DecidableEq

/-- Result record of `recommend_gpu_advanced`.  The Python function returns a
dict whose key set differs between the failure and the success branch; keys
absent from a branch are modelled as `none`. -/
structure AdvancedRecommendation where
  recommended : Option BrevInstance
  reason : Option String
  savings : Option Savings
  alternatives : List BrevInstance
  total_options : Option Nat
deriving DecidableEq

/-- Embedding of `recommend_gpu_advanced` from `pricing_advanced.py`.
`current_price` is `None`-or-value; Python's `if current_price:` is falsy for
`0.0`, hence the explicit zero test. -/
def recommend_gpu_advanced (estimated_vram_gb : ℚ) (current_price : Option ℚ)
    (max_results : Int) : AdvancedRecommendation :=
  match sortedSuitable estimated_vram_gb with
  | [] =>
    { recommended := none
      reason := some "No GPU configuration large enough for requirements"
      savings := none
      alternatives := []
      total_options := none }
  | recommended :: rest =>
    let savings : Option Savings :=
      match current_price with
      | none => none
      | some cp =>
        if cp = 0 then none
        else
          some ⟨cp - recommended.price_per_hour,
            calculate_monthly_cost (cp - recommended.price_per_hour) 24,
            calculate_yearly_cost (cp - recommended.price_per_hour) 24⟩
    { recommended := some recommended
      reason := none
      savings := savings
      alternatives := collectAlternatives rest [] [] max_results
      total_options := some (recommended :: rest).length }

/-- Embedding of one value of the `GPU_PRICING` dict of `pricing.py`. -/
structure GpuInfo where
  name : String
  vram_gb : ℚ
  cost_per_hour : ℚ
  good_for : String
  compute_score : ℚ
deriving DecidableEq

/-- Embedding of the `GPU_PRICING` dict of `pricing.py` as an association list
in dict insertion order. -/
def GPU_PRICING : List (String × GpuInfo) := [
  ("gpu_1x_t4", ⟨"T4", 16, 0.40, "Small models, inference, cost-sensitive workloads", 60⟩),
  ("gpu_1x_a10", ⟨"A10", 24, 0.90, "Medium models, training, balanced performance", 100⟩),
  ("gpu_1x_v100", ⟨"V100", 16, 1.50, "Legacy workloads, specific library requirements", 80⟩),
  ("gpu_1x_a100", ⟨"A100", 40, 2.50, "Large models, fast training, production workloads", 200⟩),
  ("gpu_1x_a100_80gb", ⟨"A100 80GB", 80, 3.00, "Very large models, massive batch sizes", 220⟩),
  ("gpu_1x_h100", ⟨"H100", 80, 4.00, "Cutting-edge research, fastest training", 300⟩),
  ("any", ⟨"Any GPU", 16, 0.60, "Flexible, Brev will assign available GPU", 70⟩)]

/-- Embedding of the per-candidate record built by `recommend_gpu` from
`pricing.py`: `{"gpu_id": ..., "info": ..., "cost_efficiency": score/cost}`. -/
structure SuitableGpu where
  gpu_id : String
  info : GpuInfo
  cost_efficiency : ℚ
deriving DecidableEq

/-- Sort key of `recommend_gpu`: Python sorts the suitable GPUs by
`cost_per_hour` alone (stable, no tie-break). -/
def simpleKeyLe (a b : SuitableGpu) : Prop :=
  a.info.cost_per_hour ≤ b.info.cost_per_hour

instance : DecidableRel simpleKeyLe := fun a b => by
  unfold simpleKeyLe; infer_instance

instance : IsTotal SuitableGpu simpleKeyLe :=
  ⟨fun a b => le_total a.info.cost_per_hour b.info.cost_per_hour⟩

instance : IsTrans SuitableGpu simpleKeyLe :=
  ⟨fun _ _ _ hab hbc => le_trans hab hbc⟩

instance : IsRefl SuitableGpu simpleKeyLe :=
  ⟨fun _ => le_refl _⟩

/-- Catalog entries eligible for recommendation by `recommend_gpu`: every
entry except the `"any"` placeholder. -/
def nonAnyPricing : List (String × GpuInfo) :=
  GPU_PRICING.filter fun e => !(e.1 == "any")

/-- Suitable candidates of `recommend_gpu`: the `"any"` entry is skipped, the
rest are kept when `info["vram_gb"] >= estimated_vram_gb * 1.2`, each mapped to
a `SuitableGpu` record with `cost_efficiency = compute_score / cost_per_hour`. -/
def suitableGpus (estimated_vram_gb : ℚ) : List SuitableGpu :=
  (GPU_PRICING.filter fun e =>
      !(e.1 == "any") && decide (estimated_vram_gb * 1.2 ≤ e.2.vram_gb)).map
    fun e => ⟨e.1, e.2, e.2.compute_score / e.2.cost_per_hour⟩

/-- Result record of `recommend_gpu` from `pricing.py`; dict keys absent from
the failure branch are modelled as `none`.  The savings computation (driven by
`current_gpu`) is omitted from the claims and kept as in the source. -/
structure SimpleRecommendation where
  recommended : Option String
  info : Option GpuInfo
  reason : Option String
  all_options : List SuitableGpu
deriving DecidableEq

/-- Embedding of `recommend_gpu` from `pricing.py` (the coarse 7-entry-catalog
variant). -/
def recommend_gpu (estimated_vram_gb : ℚ) : SimpleRecommendation :=
  match List.insertionSort simpleKeyLe (suitableGpus estimated_vram_gb) with
  | [] =>
    { recommended := none
      info := none
      reason := some "No GPU large enough for requirements"
      all_options := [] }
  | g :: rest =>
    { recommended := some g.gpu_id
      info := some g.info
      reason := none
      all_options := g :: rest }

/-! Estimator embedding (`detect.py`).  The signature catalog of
`estimate_vram_usage_detailed` uses a restricted regular-expression language:
alternation of branches, each branch a sequence of literals, `.*` gaps (any
characters except newline, as in Python's default `re` mode) and single
optional characters (`-?`).  That language is embedded exactly. -/

/-- Piece of one branch of a signature pattern: a literal, a `.*` gap, or an
optional single character. -/
inductive Piece where
  | lit (l : String)
  | dotStar
  | opt (c : Char)
deriving DecidableEq

/-- Matching of a literal against the start of a character list. -/
def litAt : List Char → List Char → Bool
  | [], _ => true
  | _ :: _, [] => false
  | c :: cs, d :: ds => c == d && litAt cs ds

/-- Length of the longest newline-free prefix of the text: the maximal number
of characters a `.*` gap may skip (Python's `.` does not match a newline). -/
def nlFreePrefixLen : List Char → Nat
  | [] => 0
  | c :: rest => if c == '\n' then 0 else nlFreePrefixLen rest + 1

/-- Matching of the remaining branch pieces at the start of the text (with
unconstrained trailing text, as under Python's re.search).  A `.*` gap may
skip any number of non-newline characters before the rest of the branch. -/
def matchAt : List Piece → List Char → Bool
  | [], _ => true
  | .lit l :: ps, s => litAt l.toList s && matchAt ps (s.drop l.toList.length)
  | .opt _ :: ps, [] => matchAt ps []
  | .opt c :: ps, d :: rest => matchAt ps (d :: rest) || (d == c && matchAt ps rest)
  | .dotStar :: ps, s =>
    (List.range (nlFreePrefixLen s + 1)).any fun k => matchAt ps (s.drop k)

/-- Search of one branch anywhere in the text (the match may start at any
position, as under Python's re.search). -/
def branchSearch (b : List Piece) : List Char → Bool
  | [] => matchAt b []
  | c :: rest => matchAt b (c :: rest) || branchSearch b rest

/-- Search of a full alternation pattern anywhere in the text. -/
def patternSearch (pat : List (List Piece)) (s : List Char) : Bool :=
  pat.any fun b => branchSearch b s

/-- Lower-casing as applied by the scanner before matching
(`content.lower()`). -/
def lower (s : String) : List Char :=
  s.toList.map Char.toLower

/-- Substring containment, the semantics of Python's `needle in haystack`. -/
def containsSub (needle : String) : List Char → Bool
  | [] => litAt needle.toList []
  | c :: rest => litAt needle.toList (c :: rest) || containsSub needle rest

/-- Embedding of the `model_patterns` dict of `estimate_vram_usage_detailed`:
each entry is (pattern, model name, baseline VRAM in GB), in source order. -/
def modelPatterns : List (List (List Piece) × String × ℚ) := [
  ([[.lit "gpt", .opt '-', .lit "2"], [.lit "gpt2"]], "GPT-2", 2),
  ([[.lit "gpt", .opt '-', .lit "3.5"], [.lit "gpt3"]], "GPT-3.5", 4),
  ([[.lit "llama", .dotStar, .lit "7b"], [.lit "7b", .dotStar, .lit "model"],
    [.lit "7b", .dotStar, .lit "llm"]], "LLaMA 7B", 14),
  ([[.lit "llama", .dotStar, .lit "13b"], [.lit "13b", .dotStar, .lit "model"]],
    "LLaMA 13B", 26),
  ([[.lit "llama", .dotStar, .lit "70b"], [.lit "70b", .dotStar, .lit "model"]],
    "LLaMA 70B", 140),
  ([[.lit "mistral", .dotStar, .lit "7b"]], "Mistral 7B", 14),
  ([[.lit "mixtral", .dotStar, .lit "8x7b"]], "Mixtral 8x7B", 90),
  ([[.lit "stable", .dotStar, .lit "diffusion", .dotStar, .lit "1.5"],
    [.lit "sd", .dotStar, .lit "1.5"], [.lit "runwayml"]], "Stable Diffusion 1.5", 6),
  ([[.lit "stable", .dotStar, .lit "diffusion", .dotStar, .lit "xl"], [.lit "sdxl"]],
    "Stable Diffusion XL", 12),
  ([[.lit "stable", .dotStar, .lit "diffusion", .dotStar, .lit "2"],
    [.lit "sd", .dotStar, .lit "2."]], "Stable Diffusion 2", 8),
  ([[.lit "whisper", .dotStar, .lit "large"]], "Whisper Large", 10),
  ([[.lit "whisper", .dotStar, .lit "medium"]], "Whisper Medium", 5),
  ([[.lit "whisper", .dotStar, .lit "small"]], "Whisper Small", 2),
  ([[.lit "whisper", .dotStar, .lit "base"]], "Whisper Base", 1),
  ([[.lit "bert", .dotStar, .lit "large"]], "BERT Large", 3),
  ([[.lit "bert", .dotStar, .lit "base"]], "BERT Base", 1.5),
  ([[.lit "t5", .dotStar, .lit "large"]], "T5 Large", 3),
  ([[.lit "t5", .dotStar, .lit "xl"]], "T5 XL", 11),
  ([[.lit "yolo", .dotStar, .lit "v8"]], "YOLOv8", 2),
  ([[.lit "sam"], [.lit "segment", .dotStar, .lit "anything"]],
    "Segment Anything (SAM)", 6)]

/-- Detection evidence record: `{"model": ..., "vram": ..., "file": ...}`. -/
structure Detection where
  model : String
  vram : ℚ
  file : String
deriving DecidableEq

/-- Abstraction of one Python source file found by `path.rglob("*.py")`:
its basename (used for the leading-dot skip), its path relative to the project
root (used as the detection label) and its text content. -/
structure PyFile where
  name : String
  rel : String
  content : String
deriving DecidableEq

/-- Abstraction of the scanned project directory: the Python files in
traversal order, and the contents of the two root dependency manifests when
present. -/
structure Project where
  pyFiles : List PyFile
  requirements : Option String
  pyproject : Option String
deriving DecidableEq

/-- Test for the scanner's skip of files whose basename starts with a dot. -/
def startsWithDot (s : String) : Bool :=
  match s.toList with
  | [] => false
  | c :: _ => c == '.'

/-- Python files actually scanned: those whose basename does not start with a
dot. -/
def scannedPyFiles (p : Project) : List PyFile :=
  p.pyFiles.filter fun f => !(startsWithDot f.name)

/-- Detections produced by matching every signature pattern against one
lower-cased text unit, labeled with the given file label. -/
def fileDetections (label : String) (content : String) : List Detection :=
  modelPatterns.filterMap fun e =>
    if patternSearch e.1 (lower content) then some ⟨e.2.1, e.2.2, label⟩ else none

/-- Detections from the recursive Python-file scan. -/
def pyDetections (p : Project) : List Detection :=
  (scannedPyFiles p).flatMap fun f => fileDetections f.rel f.content

/-- Detections from requirements.txt, labeled with the manifest name. -/
def reqDetections (p : Project) : List Detection :=
  match p.requirements with
  | none => []
  | some c => fileDetections "requirements.txt" c

/-- Detections from pyproject.toml, labeled with the manifest name. -/
def pyprojDetections (p : Project) : List Detection :=
  match p.pyproject with
  | none => []
  | some c => fileDetections "pyproject.toml" c

/-- All signature-pattern detections of a scan, in scan order. -/
def patternDetections (p : Project) : List Detection :=
  pyDetections p ++ reqDetections p ++ pyprojDetections p

/-- Running maximum of detection VRAM values, starting from 0 as in the
source. -/
def maxVram (l : List Detection) : ℚ :=
  l.foldl (fun m d => max m d.vram) 0

/-- Framework names recognized in one Python file's lower-cased content,
in source order. -/
def pyFileFrameworks (content : String) : List String :=
  let lc := lower content
  (if containsSub "import torch" lc || containsSub "from torch" lc then ["PyTorch"] else []) ++
  (if containsSub "import tensorflow" lc || containsSub "from tensorflow" lc then
    ["TensorFlow"] else []) ++
  (if containsSub "import jax" lc || containsSub "from jax" lc then ["JAX"] else []) ++
  (if containsSub "from diffusers" lc || containsSub "import diffusers" lc then
    ["Diffusers"] else []) ++
  (if containsSub "import transformers" lc || containsSub "from transformers" lc then
    ["Transformers"] else [])

/-- Framework names recognized in the requirements.txt content (bare substring
markers; note jax is absent here, as in the source). -/
def reqFrameworks (content : String) : List String :=
  let lc := lower content
  (if containsSub "torch" lc then ["PyTorch"] else []) ++
  (if containsSub "tensorflow" lc then ["TensorFlow"] else []) ++
  (if containsSub "diffusers" lc then ["Diffusers"] else []) ++
  (if containsSub "transformers" lc then ["Transformers"] else [])

/-- All framework mentions accumulated during the scan (the source collects
them into a set; order is irrelevant after the final sort). -/
def frameworkMentions (p : Project) : List String :=
  ((scannedPyFiles p).flatMap fun f => pyFileFrameworks f.content) ++
  (match p.requirements with
   | none => []
   | some c => reqFrameworks c)

/-- Recognized frameworks as reported: deduplicated and sorted, the embedding
of `sorted(list(frameworks))`. -/
def frameworksSorted (p : Project) : List String :=
  List.insertionSort (fun a b : String => a ≤ b) (frameworkMentions p).eraseDups

/-- Concatenated lower-cased manifest contents used by the fallback branch
(`all_content`). -/
def manifestChars (p : Project) : List Char :=
  (match p.requirements with
   | none => []
   | some c => lower c) ++
  (match p.pyproject with
   | none => []
   | some c => lower c)

/-- Fallback framework test of the estimator:
`any(fw in all_content for fw in ['torch', 'tensorflow', 'jax'])`. -/
def hasFrameworkMarker (p : Project) : Bool :=
  containsSub "torch" (manifestChars p) || containsSub "tensorflow" (manifestChars p) ||
    containsSub "jax" (manifestChars p)

/-- Generic-baseline detection appended when no model signature matched but a
framework marker appears in the manifest content. -/
def fallbackDetections (p : Project) : List Detection :=
  if hasFrameworkMarker p then
    [⟨"Generic ML Framework", 4, "requirements.txt (baseline)"⟩]
  else []

/-- Complete detection list of a scan, fallback included exactly when no
signature-pattern baseline was found (`max_vram == 0`). -/
def allDetections (p : Project) : List Detection :=
  if maxVram (patternDetections p) = 0 then patternDetections p ++ fallbackDetections p
  else patternDetections p

/-- Floor of a rational as an executable integer division (floor division of
numerator by denominator). -/
def ratFloor (q : ℚ) : ℤ :=
  Int.fdiv q.num (q.den : ℤ)

/-- Rounding half-to-even to an integer, the semantics of Python's built-in
round on exactly representable values. -/
def roundHalfEven (q : ℚ) : ℤ :=
  let f := ratFloor q
  let r := q - (f : ℚ)
  if r < 1/2 then f
  else if (1/2 : ℚ) < r then f + 1
  else if f % 2 = 0 then f
  else f + 1

/-- Embedding of `round(x, 1)`: rounding to one decimal place. -/
def round1 (q : ℚ) : ℚ :=
  (roundHalfEven (q * 10) : ℚ) / 10

/-- One step of the model-name deduplication dict: replace the entry of the
same name when the new vram is strictly larger, append when the name is new. -/
def upsertDetection (acc : List Detection) (d : Detection) : List Detection :=
  if acc.any (fun e => e.model == d.model) then
    acc.map fun e => if e.model == d.model && decide (e.vram < d.vram) then d else e
  else acc ++ [d]

/-- Embedding of the dedup-by-model-name merge of
`estimate_vram_usage_detailed` (a dict keyed by model name, keeping the larger
vram, values listed in first-insertion order). -/
def dedupModels (l : List Detection) : List Detection :=
  l.foldl upsertDetection []

/-- Result record of `estimate_vram_usage_detailed`. -/
structure EstimationResult where
  estimated_vram : ℚ
  base_vram : ℚ
  detected_models : List Detection
  frameworks : List String
deriving DecidableEq

/-- Embedding of `estimate_vram_usage_detailed` from `detect.py`. -/
def estimate_vram_usage_detailed (p : Project) : Option EstimationResult :=
  if maxVram (allDetections p) = 0 then none
  else
    some
      { estimated_vram := round1 (maxVram (allDetections p) * 1.5)
        base_vram := maxVram (allDetections p)
        detected_models := dedupModels (allDetections p)
        frameworks := frameworksSorted p }

/-- Embedding of the `estimate_vram_usage` wrapper from `detect.py`. -/
def estimate_vram_usage (p : Project) : Option ℚ :=
  (estimate_vram_usage_detailed p).map fun r => r.estimated_vram

/-- Candidate list from which the alternatives of `recommend_gpu_advanced` are
collected: the sorted suitable instances minus the recommended head
(`suitable_instances[1:]`). -/
def advCandidates (r : ℚ) : List BrevInstance :=
  (sortedSuitable r).tail

/-- Characterization written after the specification's words (section 4.2):
a recommendation is a catalog entry that passes the 20%-buffer VRAM filter and
is cheapest by hourly price among the entries that pass it.  Both recommender
variants are compared against this one description. -/
def IsCheapestFit {α : Type} (vramOf priceOf : α → ℚ) (catalog : List α)
    (required_vram_gb : ℚ) (x : α) : Prop :=
  x ∈ catalog ∧ required_vram_gb * 1.2 ≤ vramOf x ∧
    ∀ y ∈ catalog, required_vram_gb * 1.2 ≤ vramOf y → priceOf x ≤ priceOf y

/-- Example project of the specification: one Python file mentioning
stable diffusion 1.5. -/
def sdExampleProject : Project :=
  ⟨[⟨"app.py", "app.py", "# loads stable diffusion 1.5 for image generation"⟩],
    none, none⟩

/-- Example project of the specification: only a manifest mentioning torch. -/
def torchExampleProject : Project :=
  ⟨[], some "torch", none⟩

/-- Example project of the specification: an empty project. -/
def emptyExampleProject : Project :=
  ⟨[], none, none⟩

end BrevLauncher

namespace BrevLauncher

/-! Helper lemmas about the recommender embeddings. -/

/-- Helper: the advanced sort key implies a price comparison. -/
theorem advKeyLe_price {i j : BrevInstance} (h : advKeyLe i j) :
    i.price_per_hour ≤ j.price_per_hour := by
  rcases h with h | ⟨h, _⟩
  · exact le_of_lt h
  · exact le_of_eq h

/-- Helper: the head of an insertion sort under a total reflexive transitive
relation is a member of the list and minimal for the relation. -/
theorem insertionSort_head_min {α : Type} (r : α → α → Prop) [DecidableRel r]
    [IsTotal α r] [IsTrans α r] [IsRefl α r] (l : List α) (a : α)
    (h : (List.insertionSort r l).head? = some a) : a ∈ l ∧ ∀ j ∈ l, r a j := by
  cases hs : List.insertionSort r l with
  | nil => rw [hs] at h; exact absurd h (by simp)
  | cons b t =>
    have hperm : List.Perm (b :: t) l := by rw [← hs]; exact List.perm_insertionSort r l
    have hsorted : List.Sorted r (b :: t) := by
      rw [← hs]; exact List.sorted_insertionSort r l
    rw [hs] at h
    have hba : b = a := by simpa using h
    subst hba
    refine ⟨hperm.subset (List.mem_cons_self _ _), ?_⟩
    intro j hj
    have hj2 : j ∈ b :: t := hperm.symm.subset hj
    rcases List.mem_cons.mp hj2 with rfl | hj3
    · exact refl_of r j
    · exact (List.sorted_cons.mp hsorted).1 j hj3

/-- Helper: membership in the filtered suitable set of the advanced
recommender. -/
theorem mem_suitableInstances {v : ℚ} {i : BrevInstance} :
    i ∈ suitableInstances v ↔ i ∈ BREV_INSTANCES ∧ v * 1.2 ≤ i.total_vram_gib := by
  simp [suitableInstances, List.mem_filter]

/-- Helper: the sorted suitable list is a permutation of the filtered set. -/
theorem sortedSuitable_perm (v : ℚ) : List.Perm (sortedSuitable v) (suitableInstances v) :=
  List.perm_insertionSort _ _

/-- Helper: the recommended field is the head of the sorted suitable list. -/
theorem recommended_eq_head (v : ℚ) (cp : Option ℚ) (N : ℤ) :
    (recommend_gpu_advanced v cp N).recommended = (sortedSuitable v).head? := by
  rcases hs : sortedSuitable v with _ | ⟨a, t⟩ <;>
    simp [recommend_gpu_advanced, hs]

/-- Helper: a returned advanced recommendation is a suitable instance that is
minimal for the sort key among all suitable instances. -/
theorem recommended_min (v : ℚ) (cp : Option ℚ) (N : ℤ) (i : BrevInstance)
    (h : (recommend_gpu_advanced v cp N).recommended = some i) :
    i ∈ suitableInstances v ∧ ∀ j ∈ suitableInstances v, advKeyLe i j := by
  rw [recommended_eq_head] at h
  exact insertionSort_head_min advKeyLe (suitableInstances v) i h

/-! Claim theorems. -/

/-- C1: for every non-negative required VRAM r, the advanced recommender
considers exactly the catalog instances whose total VRAM is at least the
threshold r * 1.2 (equality included, strictly below excluded), sorts them by
ascending price with ties broken by descending cost efficiency, and returns
the first element of that order: the returned pick is a suitable instance
minimal for that lexicographic key. -/
theorem claim_C1 (r : ℚ) (h0 : 0 ≤ r) :
    (∀ i ∈ BREV_INSTANCES, (r * 1.2 ≤ i.total_vram_gib ↔ i ∈ suitableInstances r)) ∧
    List.Sorted advKeyLe (sortedSuitable r) ∧
    List.Perm (sortedSuitable r) (suitableInstances r) ∧
    (recommend_gpu_advanced r none 5).recommended = (sortedSuitable r).head? ∧
    ∀ i, (recommend_gpu_advanced r none 5).recommended = some i →
      i ∈ BREV_INSTANCES ∧ r * 1.2 ≤ i.total_vram_gib ∧
        ∀ j ∈ BREV_INSTANCES, r * 1.2 ≤ j.total_vram_gib →
          (i.price_per_hour < j.price_per_hour ∨
            (i.price_per_hour = j.price_per_hour ∧
              j.cost_efficiency ≤ i.cost_efficiency)) := by
  refine ⟨?_, List.sorted_insertionSort _ _, sortedSuitable_perm r,
    recommended_eq_head r none 5, ?_⟩
  · intro i hi
    rw [mem_suitableInstances]
    exact ⟨fun h => ⟨hi, h⟩, fun h => h.2⟩
  · intro i hi
    obtain ⟨hmem, hmin⟩ := recommended_min r none 5 i hi
    obtain ⟨hinst, hvr⟩ := mem_suitableInstances.mp hmem
    refine ⟨hinst, hvr, ?_⟩
    intro j hj hjv
    exact hmin j (mem_suitableInstances.mpr ⟨hj, hjv⟩)

/-- C1 witness: at required VRAM 20 the threshold is exactly 24; the 24-GiB
A10 instance sits exactly on the threshold and is considered, while the 16-GiB
T4 instance lies strictly below it and is excluded. -/
theorem claim_C1_witness :
    0 ≤ (20 : ℚ) ∧
    ((⟨"A10", 1, 24, 24, "MASSEDCOMPUTE", 0.65, 36.92⟩ : BrevInstance) ∈
        suitableInstances 20 ∧
      (⟨"T4", 1, 16, 16, "AWS", 0.40, 40.00⟩ : BrevInstance) ∉ suitableInstances 20) := by
  refine ⟨by norm_num, ?_, ?_⟩
  · exact ((claim_C1 20 (by norm_num)).1 _ (by decide)).mp (by decide)
  · intro hmem
    have h := ((claim_C1 20 (by norm_num)).1
      ⟨"T4", 1, 16, 16, "AWS", 0.40, 40.00⟩ (by decide)).mpr hmem
    exact absurd h (by decide)

/-- C4: when no catalog instance reaches the threshold, the advanced
recommender returns a normal record with an absent recommendation, an empty
alternatives list and the explicit no-configuration reason string. -/
theorem claim_C4 (r : ℚ) (h0 : 0 ≤ r)
    (h : ∀ i ∈ BREV_INSTANCES, i.total_vram_gib < r * 1.2) :
    recommend_gpu_advanced r none 5 =
      { recommended := none
        reason := some "No GPU configuration large enough for requirements"
        savings := none
        alternatives := []
        total_options := none } := by
  have hnil : suitableInstances r = [] := by
    unfold suitableInstances
    rw [List.filter_eq_nil_iff]
    intro i hi
    simpa using not_le.mpr (h i hi)
  have hs : sortedSuitable r = [] := by
    unfold sortedSuitable
    rw [hnil]
    rfl
  simp [recommend_gpu_advanced, hs]

/-- C4 witness: a 10000-GB requirement exceeds every catalog instance, and the
returned record is the explicit no-configuration outcome. -/
theorem claim_C4_witness :
    0 ≤ (10000 : ℚ) ∧ (∀ i ∈ BREV_INSTANCES, i.total_vram_gib < 10000 * 1.2) ∧
    recommend_gpu_advanced 10000 none 5 =
      { recommended := none
        reason := some "No GPU configuration large enough for requirements"
        savings := none
        alternatives := []
        total_options := none } :=
  ⟨by norm_num, by decide, claim_C4 10000 (by norm_num) (by decide)⟩

/-- C6 counterexample: the catalog entry for 8x B200 at DATACRUNCH stores
cost efficiency 38.15, but 1536 / 40.27 = 38.1425..., which is 0.0075 away —
more than the half-unit-in-the-last-place rounding tolerance 0.005 of the
two-decimal catalog values. -/
theorem claim_C6_counterexample :
    (⟨"B200", 8, 192, 1536, "DATACRUNCH", 40.27, 38.15⟩ : BrevInstance) ∈
      BREV_INSTANCES ∧
    ¬ |(38.15 : ℚ) - 1536 / 40.27| ≤ 1 / 200 := by
  constructor
  · decide
  · decide

/-- C6 amended: every catalog instance satisfies total_vram_gib =
gpus * vram_per_gpu_gib exactly, and cost_efficiency agrees with
total_vram_gib / price_per_hour within 0.01 (one unit in the second decimal
place; two entries exceed the half-unit tolerance 0.005). -/
theorem claim_C6 :
    ∀ i ∈ BREV_INSTANCES,
      i.total_vram_gib = (i.gpus : ℚ) * i.vram_per_gpu_gib ∧
      |i.cost_efficiency - i.total_vram_gib / i.price_per_hour| ≤ 1 / 100 := by
  decide

/-- C6 witness: the amended invariant evaluated at the first catalog entry. -/
theorem claim_C6_witness :
    (⟨"B300", 1, 288, 288, "DATACRUNCH", 7.91, 36.41⟩ : BrevInstance) ∈
      BREV_INSTANCES ∧
    ((288 : ℚ) = ((1 : ℕ) : ℚ) * 288 ∧ |(36.41 : ℚ) - 288 / 7.91| ≤ 1 / 100) :=
  ⟨by decide, claim_C6 ⟨"B300", 1, 288, 288, "DATACRUNCH", 7.91, 36.41⟩ (by decide)⟩

/-- C9: the code performs no input validation: at the malformed negative
requirement -5 the advanced recommender silently returns the cheapest catalog
instance (the AWS T4) instead of raising a validation failure, contradicting
the specified boundary contract. -/
theorem claim_C9 :
    (recommend_gpu_advanced (-5) none 5).recommended =
      some ⟨"T4", 1, 16, 16, "AWS", 0.40, 40.00⟩ ∧
    (recommend_gpu_advanced (-5) none 5).reason = none := by
  constructor
  · decide
  · decide

end BrevLauncher

namespace BrevLauncher

/-! Monotonicity helpers (claim C10). -/

/-- Helper: a larger requirement selects a subset of the suitable instances. -/
theorem suitable_anti {v1 v2 : ℚ} (h : v1 ≤ v2) :
    ∀ i ∈ suitableInstances v2, i ∈ suitableInstances v1 := by
  intro i hi
  obtain ⟨hm, hv⟩ := mem_suitableInstances.mp hi
  refine mem_suitableInstances.mpr ⟨hm, le_trans ?_ hv⟩
  exact mul_le_mul_of_nonneg_right h (by norm_num)

/-- Helper: the number of suitable instances is antitone in the requirement. -/
theorem suitable_length_anti {v1 v2 : ℚ} (h : v1 ≤ v2) :
    (suitableInstances v2).length ≤ (suitableInstances v1).length := by
  unfold suitableInstances
  refine List.Sublist.length_le (List.monotone_filter_right _ ?_)
  intro a ha
  simp only [decide_eq_true_eq] at ha ⊢
  exact le_trans (mul_le_mul_of_nonneg_right h (by norm_num)) ha

/-- Helper: whenever a recommendation is returned, the total_options field
counts all instances that passed the threshold filter. -/
theorem total_options_eq (v : ℚ) (cp : Option ℚ) (N : ℤ) (i : BrevInstance)
    (h : (recommend_gpu_advanced v cp N).recommended = some i) :
    (recommend_gpu_advanced v cp N).total_options =
      some (suitableInstances v).length := by
  rcases hs : sortedSuitable v with _ | ⟨a, t⟩
  · rw [recommended_eq_head, hs] at h
    cases h
  · have hlen : (a :: t).length = (suitableInstances v).length := by
      rw [← hs]
      exact (sortedSuitable_perm v).length_eq
    simp [recommend_gpu_advanced, hs, hlen]

/-- Helper: a nonempty suitable set yields a recommendation. -/
theorem recommended_isSome {v : ℚ} (cp : Option ℚ) (N : ℤ) {i : BrevInstance}
    (hi : i ∈ suitableInstances v) :
    ∃ j, (recommend_gpu_advanced v cp N).recommended = some j := by
  rw [recommended_eq_head]
  rcases hs : sortedSuitable v with _ | ⟨a, t⟩
  · have hmem : i ∈ sortedSuitable v := (sortedSuitable_perm v).symm.subset hi
    rw [hs] at hmem
    cases hmem
  · exact ⟨a, rfl⟩

/-- C10: the advanced recommendation is monotone in the requirement: for
non-negative v1 ≤ v2, a recommendation at v2 implies one at v1, the price at
v1 is at most the price at v2, and the reported total_options at v1 is at
least the one at v2 (both equal to their filtered-catalog counts). -/
theorem claim_C10 (v1 v2 : ℚ) (h0 : 0 ≤ v1) (h12 : v1 ≤ v2) (i2 : BrevInstance)
    (h2 : (recommend_gpu_advanced v2 none 5).recommended = some i2) :
    ∃ i1, (recommend_gpu_advanced v1 none 5).recommended = some i1 ∧
      i1.price_per_hour ≤ i2.price_per_hour ∧
      (recommend_gpu_advanced v1 none 5).total_options =
        some (suitableInstances v1).length ∧
      (recommend_gpu_advanced v2 none 5).total_options =
        some (suitableInstances v2).length ∧
      (suitableInstances v2).length ≤ (suitableInstances v1).length := by
  obtain ⟨hm2, _⟩ := recommended_min v2 none 5 i2 h2
  have hi2v1 : i2 ∈ suitableInstances v1 := suitable_anti h12 i2 hm2
  obtain ⟨i1, h1⟩ := recommended_isSome none 5 hi2v1
  obtain ⟨hm1, hmin1⟩ := recommended_min v1 none 5 i1 h1
  exact ⟨i1, h1, advKeyLe_price (hmin1 i2 hi2v1),
    total_options_eq v1 none 5 i1 h1, total_options_eq v2 none 5 i2 h2,
    suitable_length_anti h12⟩

/-- C10 witness: at requirements 10 and 1000 (the latter recommending the
8x B200 BOOSTRUN node at 38.40/h) the cheaper requirement gets a recommendation
at most as expensive and at least as many options. -/
theorem claim_C10_witness :
    0 ≤ (10 : ℚ) ∧ (10 : ℚ) ≤ 1000 ∧
    ∃ i1, (recommend_gpu_advanced 10 none 5).recommended = some i1 ∧
      i1.price_per_hour ≤
        (⟨"B200", 8, 192, 1536, "BOOSTRUN", 38.40, 40.00⟩ :
          BrevInstance).price_per_hour ∧
      (recommend_gpu_advanced 10 none 5).total_options =
        some (suitableInstances 10).length ∧
      (recommend_gpu_advanced 1000 none 5).total_options =
        some (suitableInstances 1000).length ∧
      (suitableInstances 1000).length ≤ (suitableInstances 10).length :=
  ⟨by norm_num, by norm_num,
    claim_C10 10 1000 (by norm_num) (by norm_num)
      ⟨"B200", 8, 192, 1536, "BOOSTRUN", 38.40, 40.00⟩ (by decide)⟩

end BrevLauncher

namespace BrevLauncher

/-! Helpers for the simple recommender (claim C8). -/

/-- Helper: the simple recommender's returned id and info are those of the
head of its price-sorted suitable list. -/
theorem simple_recommended_inv (v : ℚ) (gid : String) (info : GpuInfo)
    (h1 : (recommend_gpu v).recommended = some gid)
    (h2 : (recommend_gpu v).info = some info) :
    ∃ g, (List.insertionSort simpleKeyLe (suitableGpus v)).head? = some g ∧
      g.gpu_id = gid ∧ g.info = info := by
  rcases hs : List.insertionSort simpleKeyLe (suitableGpus v) with _ | ⟨a, t⟩
  · simp [recommend_gpu, hs] at h1
  · simp only [recommend_gpu, hs, Option.some.injEq] at h1 h2
    exact ⟨a, rfl, h1, h2⟩

/-- Helper: membership in the simple recommender's suitable list, phrased over
the non-placeholder catalog. -/
theorem mem_suitableGpus_iff {v : ℚ} {g : SuitableGpu} :
    g ∈ suitableGpus v ↔
      ∃ e ∈ nonAnyPricing, v * 1.2 ≤ e.2.vram_gb ∧
        g = ⟨e.1, e.2, e.2.compute_score / e.2.cost_per_hour⟩ := by
  unfold suitableGpus nonAnyPricing
  constructor
  · intro hg
    obtain ⟨e, he, rfl⟩ := List.mem_map.mp hg
    obtain ⟨heG, hP⟩ := List.mem_filter.mp he
    rw [Bool.and_eq_true] at hP
    obtain ⟨hne, hv⟩ := hP
    refine ⟨e, List.mem_filter.mpr ⟨heG, hne⟩, by simpa using hv, rfl⟩
  · rintro ⟨e, he, hv, rfl⟩
    obtain ⟨heG, hne⟩ := List.mem_filter.mp he
    refine List.mem_map.mpr ⟨e, List.mem_filter.mpr ⟨heG, ?_⟩, rfl⟩
    rw [Bool.and_eq_true]
    exact ⟨hne, by simpa using hv⟩

/-- Helper: a nonempty simple suitable set yields a simple recommendation. -/
theorem simple_recommended_isSome {v : ℚ} {g : SuitableGpu}
    (hg : g ∈ suitableGpus v) :
    ∃ gid, (recommend_gpu v).recommended = some gid := by
  cases hs : List.insertionSort simpleKeyLe (suitableGpus v) with
  | nil =>
    have hperm := List.perm_insertionSort simpleKeyLe (suitableGpus v)
    rw [hs] at hperm
    exact absurd (hperm.symm.subset hg) (List.not_mem_nil _)
  | cons a t => exact ⟨a.gpu_id, by simp [recommend_gpu, hs]⟩

/-- C8 counterexample: at requirement 20 both catalogs can satisfy the
threshold 24, yet the simple variant recommends the A10 class at 0.90/h while
the advanced variant recommends an RTX 4090 instance at 0.59/h — the two
recommendations agree in neither GPU model nor price. -/
theorem claim_C8_counterexample :
    (recommend_gpu 20).recommended = some "gpu_1x_a10" ∧
    (recommend_gpu 20).info =
      some ⟨"A10", 24, 0.90, "Medium models, training, balanced performance", 100⟩ ∧
    (recommend_gpu_advanced 20 none 5).recommended =
      some ⟨"RTX 4090", 1, 24, 24, "MASSEDCOMPUTE", 0.59, 40.68⟩ ∧
    ¬ ((0.90 : ℚ) = 0.59) ∧ ¬ ("A10" = "RTX 4090") := by
  refine ⟨?_, ?_, ?_, ?_, ?_⟩ <;> decide

/-- C8 amended: both variants implement the same
filter-by-1.2-buffer / sort-by-price / pick-cheapest algorithm over their own
catalogs — each returned recommendation is a cheapest fitting entry of its
catalog, and whenever both catalogs can satisfy the requirement both variants
return a recommendation — but over different catalogs the concrete picks (GPU
model and price) may differ. -/
theorem claim_C8 (v : ℚ) (h0 : 0 ≤ v) :
    (∀ i, (recommend_gpu_advanced v none 5).recommended = some i →
      IsCheapestFit (fun i => i.total_vram_gib) (fun i => i.price_per_hour)
        BREV_INSTANCES v i) ∧
    (∀ gid info, (recommend_gpu v).recommended = some gid →
      (recommend_gpu v).info = some info →
      IsCheapestFit (fun e => e.2.vram_gb) (fun e => e.2.cost_per_hour)
        nonAnyPricing v (gid, info)) ∧
    ((∃ e ∈ nonAnyPricing, v * 1.2 ≤ e.2.vram_gb) →
      (∃ i ∈ BREV_INSTANCES, v * 1.2 ≤ i.total_vram_gib) →
      (∃ gid, (recommend_gpu v).recommended = some gid) ∧
        ∃ i, (recommend_gpu_advanced v none 5).recommended = some i) := by
  refine ⟨?_, ?_, ?_⟩
  · intro i hi
    obtain ⟨hmem, hmin⟩ := recommended_min v none 5 i hi
    obtain ⟨hinst, hvr⟩ := mem_suitableInstances.mp hmem
    refine ⟨hinst, hvr, ?_⟩
    intro y hy hyv
    exact advKeyLe_price (hmin y (mem_suitableInstances.mpr ⟨hy, hyv⟩))
  · intro gid info h1 h2
    obtain ⟨g, hg, hgid, hinfo⟩ := simple_recommended_inv v gid info h1 h2
    obtain ⟨hgmem, hgmin⟩ := insertionSort_head_min simpleKeyLe (suitableGpus v) g hg
    obtain ⟨e, hemem, hev, hge⟩ := mem_suitableGpus_iff.mp hgmem
    have h1e : gid = e.1 := by rw [← hgid, hge]
    have h2e : info = e.2 := by rw [← hinfo, hge]
    have hpair : (gid, info) = e := by rw [h1e, h2e]
    rw [hpair]
    refine ⟨hemem, hev, ?_⟩
    intro y hy hyv
    have hymem : (⟨y.1, y.2, y.2.compute_score / y.2.cost_per_hour⟩ : SuitableGpu) ∈
        suitableGpus v := mem_suitableGpus_iff.mpr ⟨y, hy, hyv, rfl⟩
    have hk := hgmin _ hymem
    have : g.info.cost_per_hour ≤ y.2.cost_per_hour := hk
    calc e.2.cost_per_hour = g.info.cost_per_hour := by rw [hge]
    _ ≤ y.2.cost_per_hour := hk
  · rintro ⟨e, hemem, hev⟩ ⟨i, himem, hiv⟩
    refine ⟨?_, recommended_isSome none 5 (mem_suitableInstances.mpr ⟨himem, hiv⟩)⟩
    exact simple_recommended_isSome (mem_suitableGpus_iff.mpr ⟨e, hemem, hev, rfl⟩)

/-- C8 witness: the amended statement instantiated at requirement 20 — the
advanced pick (RTX 4090 at MASSEDCOMPUTE) is a cheapest fitting entry of the
advanced catalog. -/
theorem claim_C8_witness :
    0 ≤ (20 : ℚ) ∧
    IsCheapestFit (fun i => i.total_vram_gib) (fun i => i.price_per_hour)
      BREV_INSTANCES 20
      ⟨"RTX 4090", 1, 24, 24, "MASSEDCOMPUTE", 0.59, 40.68⟩ :=
  ⟨by norm_num,
    (claim_C8 20 (by norm_num)).1
      ⟨"RTX 4090", 1, 24, 24, "MASSEDCOMPUTE", 0.59, 40.68⟩ (by decide)⟩

end BrevLauncher

namespace BrevLauncher

/-! Helpers for the alternatives loop (claim C5). -/

/-- Helper: every collected alternative is a previously accumulated entry or a
candidate whose configuration was not yet seen. -/
theorem collectAlternatives_mem (cands : List BrevInstance) :
    ∀ seen acc N a, a ∈ collectAlternatives cands seen acc N →
      a ∈ acc ∨ (a ∈ cands ∧ configKey a ∉ seen) := by
  induction cands with
  | nil =>
    intro seen acc N a ha
    simp only [collectAlternatives] at ha
    exact Or.inl ha
  | cons c rest ih =>
    intro seen acc N a ha
    simp only [collectAlternatives] at ha
    by_cases hseen : configKey c ∈ seen
    · rw [if_pos hseen] at ha
      rcases ih seen acc N a ha with h | ⟨h1, h2⟩
      · exact Or.inl h
      · exact Or.inr ⟨List.mem_cons_of_mem _ h1, h2⟩
    · rw [if_neg hseen] at ha
      by_cases hlen : N ≤ ((acc ++ [c]).length : ℤ)
      · rw [if_pos hlen] at ha
        rcases List.mem_append.mp ha with h | h
        · exact Or.inl h
        · have hac : a = c := by simpa using h
          subst hac
          exact Or.inr ⟨List.mem_cons_self _ _, hseen⟩
      · rw [if_neg hlen] at ha
        rcases ih _ _ N a ha with h | ⟨h1, h2⟩
        · rcases List.mem_append.mp h with h | h
          · exact Or.inl h
          · have hac : a = c := by simpa using h
            subst hac
            exact Or.inr ⟨List.mem_cons_self _ _, hseen⟩
        · exact Or.inr
            ⟨List.mem_cons_of_mem _ h1, fun hc => h2 (List.mem_cons_of_mem _ hc)⟩

/-- Helper: the collected alternatives have pairwise distinct configuration
keys, given that the accumulator does and is covered by the seen set. -/
theorem collectAlternatives_nodup (cands : List BrevInstance) :
    ∀ seen acc N, (acc.map configKey).Nodup → (∀ a ∈ acc, configKey a ∈ seen) →
      ((collectAlternatives cands seen acc N).map configKey).Nodup := by
  induction cands with
  | nil =>
    intro seen acc N h1 _
    simpa only [collectAlternatives] using h1
  | cons c rest ih =>
    intro seen acc N h1 h2
    simp only [collectAlternatives]
    by_cases hseen : configKey c ∈ seen
    · rw [if_pos hseen]
      exact ih seen acc N h1 h2
    · rw [if_neg hseen]
      have hnotin : configKey c ∉ acc.map configKey := by
        intro hmem
        obtain ⟨a, ha, hak⟩ := List.mem_map.mp hmem
        exact hseen (hak ▸ h2 a ha)
      have h1' : ((acc ++ [c]).map configKey).Nodup := by
        rw [List.map_append, List.nodup_append]
        refine ⟨h1, List.nodup_singleton _, ?_⟩
        intro x hx hx2
        have hxc : x = configKey c := by simpa using hx2
        exact hnotin (hxc ▸ hx)
      by_cases hlen : N ≤ ((acc ++ [c]).length : ℤ)
      · rw [if_pos hlen]
        exact h1'
      · rw [if_neg hlen]
        refine ih _ _ N h1' ?_
        intro a ha
        rcases List.mem_append.mp ha with h | h
        · exact List.mem_cons_of_mem _ (h2 a h)
        · have hac : a = c := by simpa using h
          subst hac
          exact List.mem_cons_self _ _

/-- Helper: the collected alternatives number at most N when the accumulator
has not yet reached N. -/
theorem collectAlternatives_length (cands : List BrevInstance) :
    ∀ seen acc (N : ℤ), (acc.length : ℤ) < N →
      ((collectAlternatives cands seen acc N).length : ℤ) ≤ N := by
  induction cands with
  | nil =>
    intro seen acc N h
    simpa only [collectAlternatives] using le_of_lt h
  | cons c rest ih =>
    intro seen acc N h
    simp only [collectAlternatives]
    by_cases hseen : configKey c ∈ seen
    · rw [if_pos hseen]
      exact ih seen acc N h
    · rw [if_neg hseen]
      by_cases hlen : N ≤ ((acc ++ [c]).length : ℤ)
      · rw [if_pos hlen]
        have hl : (acc ++ [c]).length = acc.length + 1 := by simp
        rw [hl]
        push_cast
        omega
      · rw [if_neg hlen]
        exact ih _ _ N (lt_of_not_le hlen)

/-- Helper: when the candidate list is sorted by the advanced key, every
collected alternative is at most as expensive as any candidate sharing its
configuration key. -/
theorem collectAlternatives_minprice (cands : List BrevInstance) :
    ∀ seen acc (N : ℤ),
      List.Pairwise advKeyLe cands →
      (∀ b ∈ acc, ∀ j ∈ cands, configKey j = configKey b →
        b.price_per_hour ≤ j.price_per_hour) →
      ∀ a ∈ collectAlternatives cands seen acc N, ∀ j ∈ cands,
        configKey j = configKey a → a.price_per_hour ≤ j.price_per_hour := by
  induction cands with
  | nil =>
    intro seen acc N _ _ a _ j hj
    exact absurd hj (List.not_mem_nil _)
  | cons c rest ih =>
    intro seen acc N hp hacc a ha j hj hkey
    obtain ⟨hc, hrest⟩ := List.pairwise_cons.mp hp
    simp only [collectAlternatives] at ha
    by_cases hseen : configKey c ∈ seen
    · rw [if_pos hseen] at ha
      rcases List.mem_cons.mp hj with rfl | hjrest
      · rcases collectAlternatives_mem rest seen acc N a ha with haacc | ⟨_, hkey2⟩
        · exact hacc a haacc j (List.mem_cons_self _ _) hkey
        · have : configKey a ∈ seen := by rw [← hkey]; exact hseen
          exact absurd this hkey2
      · exact ih seen acc N hrest
          (fun b hb jj hjj hk => hacc b hb jj (List.mem_cons_of_mem _ hjj) hk)
          a ha j hjrest hkey
    · rw [if_neg hseen] at ha
      by_cases hlen : N ≤ ((acc ++ [c]).length : ℤ)
      · rw [if_pos hlen] at ha
        rcases List.mem_append.mp ha with haacc | hac
        · exact hacc a haacc j hj hkey
        · have hac2 : a = c := by simpa using hac
          subst hac2
          rcases List.mem_cons.mp hj with rfl | hjrest
          · exact le_refl _
          · exact advKeyLe_price (hc j hjrest)
      · rw [if_neg hlen] at ha
        have hacc' : ∀ b ∈ acc ++ [c], ∀ jj ∈ rest, configKey jj = configKey b →
            b.price_per_hour ≤ jj.price_per_hour := by
          intro b hb jj hjj hk
          rcases List.mem_append.mp hb with hbacc | hbc
          · exact hacc b hbacc jj (List.mem_cons_of_mem _ hjj) hk
          · have hbc2 : b = c := by simpa using hbc
            subst hbc2
            exact advKeyLe_price (hc jj hjj)
        rcases List.mem_cons.mp hj with rfl | hjrest
        · rcases collectAlternatives_mem rest (configKey j :: seen) (acc ++ [j]) N a ha
            with haacc | ⟨_, hkey2⟩
          · rcases List.mem_append.mp haacc with h | h
            · exact hacc a h j (List.mem_cons_self _ _) hkey
            · have hac2 : a = j := by simpa using h
              subst hac2
              exact le_refl _
          · have : configKey a ∈ configKey j :: seen := by
              rw [← hkey]
              exact List.mem_cons_self _ _
            exact absurd this hkey2
        · exact ih (configKey c :: seen) (acc ++ [c]) N hrest hacc' a ha j hjrest hkey

/-- Helper: the alternatives field always equals the collection loop run on
the post-head candidates. -/
theorem alternatives_eq (v : ℚ) (cp : Option ℚ) (N : ℤ) :
    (recommend_gpu_advanced v cp N).alternatives =
      collectAlternatives (advCandidates v) [] [] N := by
  rcases hs : sortedSuitable v with _ | ⟨a, t⟩ <;>
    simp [recommend_gpu_advanced, advCandidates, hs, collectAlternatives]

/-- Helper: the candidate list inherits sortedness from the sorted suitable
list. -/
theorem advCandidates_pairwise (v : ℚ) : List.Pairwise advKeyLe (advCandidates v) := by
  have h : List.Pairwise advKeyLe (sortedSuitable v) :=
    List.sorted_insertionSort advKeyLe (suitableInstances v)
  rcases hs : sortedSuitable v with _ | ⟨a, t⟩
  · simp [advCandidates, hs]
  · rw [hs] at h
    simpa [advCandidates, hs] using (List.pairwise_cons.mp h).2

/-- Helper: every candidate is a suitable instance. -/
theorem advCandidates_subset (v : ℚ) : ∀ a ∈ advCandidates v, a ∈ suitableInstances v := by
  intro a ha
  have hmem : a ∈ sortedSuitable v := by
    unfold advCandidates at ha
    exact List.mem_of_mem_tail ha
  exact (sortedSuitable_perm v).subset hmem

/-- C5 counterexample: the claim quantifies over every max_alternatives N, but
with N = 0 (and requirement 0) the loop appends one alternative before testing
the bound, so the list has 1 > 0 entries. -/
theorem claim_C5_counterexample :
    (recommend_gpu_advanced 0 none 0).alternatives.length = 1 := by
  decide

/-- C5 amended: for every non-negative requirement and every max_alternatives
N ≥ 1 (for N ≤ 0 the loop can still emit one entry, as the counterexample
shows), the alternatives list has pairwise distinct (gpu_model, gpus,
vram_per_gpu_gib) keys, at most N entries, each entry is a post-head suitable
candidate at most as expensive as any candidate sharing its configuration, and
whenever a recommendation is returned total_options counts all instances that
passed the threshold filter. -/
theorem claim_C5 (r : ℚ) (N : ℤ) (h0 : 0 ≤ r) (hN : 1 ≤ N) :
    ((recommend_gpu_advanced r none N).alternatives.map configKey).Nodup ∧
    (((recommend_gpu_advanced r none N).alternatives.length : ℤ) ≤ N) ∧
    (∀ a ∈ (recommend_gpu_advanced r none N).alternatives,
      a ∈ advCandidates r ∧ a ∈ suitableInstances r ∧
        ∀ j ∈ advCandidates r, configKey j = configKey a →
          a.price_per_hour ≤ j.price_per_hour) ∧
    (∀ i, (recommend_gpu_advanced r none N).recommended = some i →
      (recommend_gpu_advanced r none N).total_options =
        some (suitableInstances r).length) := by
  refine ⟨?_, ?_, ?_, ?_⟩
  · rw [alternatives_eq]
    exact collectAlternatives_nodup (advCandidates r) [] [] N (by simp)
      (fun a ha => absurd ha (List.not_mem_nil _))
  · rw [alternatives_eq]
    refine collectAlternatives_length (advCandidates r) [] [] N ?_
    simpa using lt_of_lt_of_le Int.zero_lt_one hN
  · intro a ha
    rw [alternatives_eq] at ha
    rcases collectAlternatives_mem (advCandidates r) [] [] N a ha with h | ⟨h1, _⟩
    · exact absurd h (List.not_mem_nil _)
    · refine ⟨h1, advCandidates_subset r a h1, ?_⟩
      exact collectAlternatives_minprice (advCandidates r) [] [] N
        (advCandidates_pairwise r)
        (fun b hb => absurd hb (List.not_mem_nil _)) a ha
  · exact fun i hi => total_options_eq r none N i hi

/-- C5 witness: the amended statement instantiated at requirement 0 with the
default max_alternatives 5. -/
theorem claim_C5_witness :
    0 ≤ (0 : ℚ) ∧ 1 ≤ (5 : ℤ) ∧
    (((recommend_gpu_advanced 0 none 5).alternatives.map configKey).Nodup ∧
      (((recommend_gpu_advanced 0 none 5).alternatives.length : ℤ) ≤ 5) ∧
      (∀ a ∈ (recommend_gpu_advanced 0 none 5).alternatives,
        a ∈ advCandidates 0 ∧ a ∈ suitableInstances 0 ∧
          ∀ j ∈ advCandidates 0, configKey j = configKey a →
            a.price_per_hour ≤ j.price_per_hour) ∧
      (∀ i, (recommend_gpu_advanced 0 none 5).recommended = some i →
        (recommend_gpu_advanced 0 none 5).total_options =
          some (suitableInstances 0).length)) :=
  ⟨le_refl 0, by norm_num, claim_C5 0 5 (le_refl 0) (by norm_num)⟩

end BrevLauncher

namespace BrevLauncher

/-! Helpers for the estimator (claims C2, C3, C7). -/

/-- Helper: every detection produced from one text unit carries a baseline of
at least 1 GB (the smallest baseline in the signature catalog). -/
theorem fileDetections_vram_ge_one (label content : String) :
    ∀ d ∈ fileDetections label content, (1 : ℚ) ≤ d.vram := by
  intro d hd
  obtain ⟨e, he, hsome⟩ := List.mem_filterMap.mp hd
  have hall : ∀ x ∈ modelPatterns, (1 : ℚ) ≤ x.2.2 := by decide
  split at hsome
  · cases hsome
    exact hall e he
  · cases hsome

/-- Helper: every signature-pattern detection of a scan carries a baseline of
at least 1 GB. -/
theorem patternDetections_vram_ge_one (p : Project) :
    ∀ d ∈ patternDetections p, (1 : ℚ) ≤ d.vram := by
  intro d hd
  unfold patternDetections at hd
  rcases List.mem_append.mp hd with hd | hd
  · rcases List.mem_append.mp hd with hd | hd
    · obtain ⟨f, _, hdf⟩ := List.mem_flatMap.mp hd
      exact fileDetections_vram_ge_one _ _ d hdf
    · unfold reqDetections at hd
      cases hr : p.requirements with
      | none => rw [hr] at hd; exact absurd hd (List.not_mem_nil _)
      | some c => rw [hr] at hd; exact fileDetections_vram_ge_one _ _ d hd
  · unfold pyprojDetections at hd
    cases hr : p.pyproject with
    | none => rw [hr] at hd; exact absurd hd (List.not_mem_nil _)
    | some c => rw [hr] at hd; exact fileDetections_vram_ge_one _ _ d hd

/-- Helper: the running-maximum fold never goes below its initial value. -/
theorem foldl_max_init_le (l : List Detection) :
    ∀ a : ℚ, a ≤ l.foldl (fun m d => max m d.vram) a := by
  induction l with
  | nil => intro a; exact le_refl a
  | cons d t ih =>
    intro a
    calc a ≤ max a d.vram := le_max_left _ _
    _ ≤ t.foldl (fun m d => max m d.vram) (max a d.vram) := ih _

/-- Helper: the running-maximum fold dominates every element. -/
theorem le_foldl_max (l : List Detection) :
    ∀ (a : ℚ) d, d ∈ l → d.vram ≤ l.foldl (fun m d => max m d.vram) a := by
  induction l with
  | nil => intro a d hd; exact absurd hd (List.not_mem_nil _)
  | cons c t ih =>
    intro a d hd
    rcases List.mem_cons.mp hd with rfl | hdt
    · calc d.vram ≤ max a d.vram := le_max_right _ _
      _ ≤ t.foldl (fun m d => max m d.vram) (max a d.vram) := foldl_max_init_le t _
    · exact ih _ d hdt

/-- Helper: the running-maximum fold yields its initial value or some
element's value. -/
theorem foldl_max_cases (l : List Detection) :
    ∀ a : ℚ, l.foldl (fun m d => max m d.vram) a = a ∨
      ∃ d ∈ l, l.foldl (fun m d => max m d.vram) a = d.vram := by
  induction l with
  | nil => intro a; exact Or.inl rfl
  | cons c t ih =>
    intro a
    rcases ih (max a c.vram) with h | ⟨d, hd, h⟩
    · rcases max_cases a c.vram with ⟨hm, _⟩ | ⟨hm, _⟩
      · exact Or.inl (by rw [List.foldl_cons, h, hm])
      · exact Or.inr ⟨c, List.mem_cons_self _ _, by rw [List.foldl_cons, h, hm]⟩
    · exact Or.inr ⟨d, List.mem_cons_of_mem _ hd, by rw [List.foldl_cons, h]⟩

/-- C2: the estimator matches every scanned text unit against every signature
pattern; when any pattern matched, it returns a result whose base_vram is the
maximum matched baseline and whose final estimate is round(base_vram * 1.5, 1);
in particular, the stable-diffusion example project yields the detection
Stable Diffusion 1.5 with base 6.0 and estimate 9.0. -/
theorem claim_C2 :
    (∀ p : Project, patternDetections p ≠ [] →
      ∃ res, estimate_vram_usage_detailed p = some res ∧
        (∃ d ∈ patternDetections p, res.base_vram = d.vram) ∧
        (∀ d ∈ patternDetections p, d.vram ≤ res.base_vram) ∧
        res.estimated_vram = round1 (res.base_vram * 1.5)) ∧
    (∃ res, estimate_vram_usage_detailed sdExampleProject = some res ∧
      res.base_vram = 6 ∧ res.estimated_vram = 9 ∧
      (⟨"Stable Diffusion 1.5", 6, "app.py"⟩ : Detection) ∈ res.detected_models) := by
  constructor
  · intro p hne
    have h1 : 1 ≤ maxVram (patternDetections p) := by
      obtain ⟨d, hd⟩ := List.exists_mem_of_ne_nil _ hne
      exact le_trans (patternDetections_vram_ge_one p d hd) (le_foldl_max _ 0 d hd)
    have hnz : maxVram (patternDetections p) ≠ 0 :=
      ne_of_gt (lt_of_lt_of_le one_pos h1)
    have hall : allDetections p = patternDetections p := by
      unfold allDetections
      rw [if_neg hnz]
    refine ⟨⟨round1 (maxVram (patternDetections p) * 1.5), maxVram (patternDetections p),
      dedupModels (patternDetections p), frameworksSorted p⟩, ?_, ?_, ?_, rfl⟩
    · unfold estimate_vram_usage_detailed
      rw [hall, if_neg hnz]
    · rcases foldl_max_cases (patternDetections p) 0 with h | ⟨d, hd, h⟩
      · exact absurd h hnz
      · exact ⟨d, hd, h⟩
    · intro d hd
      exact le_foldl_max _ 0 d hd
  · refine ⟨⟨9, 6, [⟨"Stable Diffusion 1.5", 6, "app.py"⟩], []⟩, by decide, rfl, rfl, ?_⟩
    exact List.mem_singleton.mpr rfl

/-- C2 witness: the general statement applied to the stable-diffusion example
project, whose pattern detections are nonempty. -/
theorem claim_C2_witness :
    patternDetections sdExampleProject ≠ [] ∧
    (∃ res, estimate_vram_usage_detailed sdExampleProject = some res ∧
      (∃ d ∈ patternDetections sdExampleProject, res.base_vram = d.vram) ∧
      (∀ d ∈ patternDetections sdExampleProject, d.vram ≤ res.base_vram) ∧
      res.estimated_vram = round1 (res.base_vram * 1.5)) :=
  ⟨by decide, claim_C2.1 sdExampleProject (by decide)⟩

/-- C3: when no model signature matches anywhere, the estimator returns the
4.0-GB Generic ML Framework baseline with estimate 6.0 when a recognized
framework marker (torch, tensorflow or jax) appears in the manifest content,
and an absent result when there is no framework clue either. -/
theorem claim_C3 (p : Project) (h : patternDetections p = []) :
    (hasFrameworkMarker p = true →
      estimate_vram_usage_detailed p =
        some ⟨6, 4, [⟨"Generic ML Framework", 4, "requirements.txt (baseline)"⟩],
          frameworksSorted p⟩) ∧
    (hasFrameworkMarker p = false → estimate_vram_usage_detailed p = none) := by
  have hmax0 : maxVram (patternDetections p) = 0 := by
    rw [h]
    rfl
  have hall : allDetections p = fallbackDetections p := by
    unfold allDetections
    rw [if_pos hmax0, h]
    rfl
  constructor
  · intro hm
    have hfb : fallbackDetections p =
        [⟨"Generic ML Framework", 4, "requirements.txt (baseline)"⟩] := by
      unfold fallbackDetections
      simp [hm]
    have h4 : maxVram
        [(⟨"Generic ML Framework", 4, "requirements.txt (baseline)"⟩ : Detection)] = 4 := by
      decide
    have hr6 : round1 ((4 : ℚ) * 1.5) = 6 := by decide
    have hdd : dedupModels
        [(⟨"Generic ML Framework", 4, "requirements.txt (baseline)"⟩ : Detection)] =
        [⟨"Generic ML Framework", 4, "requirements.txt (baseline)"⟩] := by
      decide
    unfold estimate_vram_usage_detailed
    rw [hall, hfb, h4, if_neg (by norm_num : (4 : ℚ) ≠ 0), hr6, hdd]
  · intro hm
    have hfb : fallbackDetections p = [] := by
      unfold fallbackDetections
      simp [hm]
    unfold estimate_vram_usage_detailed
    rw [hall, hfb, if_pos]
    rfl

/-- C3 witness: the theorem applied to the torch-manifest example project (4.0
baseline, 6.0 estimate) and to the empty example project (absent result). -/
theorem claim_C3_witness :
    (patternDetections torchExampleProject = [] ∧
      hasFrameworkMarker torchExampleProject = true ∧
      estimate_vram_usage_detailed torchExampleProject =
        some ⟨6, 4, [⟨"Generic ML Framework", 4, "requirements.txt (baseline)"⟩],
          frameworksSorted torchExampleProject⟩) ∧
    (patternDetections emptyExampleProject = [] ∧
      hasFrameworkMarker emptyExampleProject = false ∧
      estimate_vram_usage_detailed emptyExampleProject = none) :=
  ⟨⟨by decide, by decide, (claim_C3 torchExampleProject (by decide)).1 (by decide)⟩,
    ⟨by decide, by decide, (claim_C3 emptyExampleProject (by decide)).2 (by decide)⟩⟩

end BrevLauncher

namespace BrevLauncher

/-! Helpers for the dedup-by-model-name merge (claim C7). -/

/-- Helper: an upsert result contains only accumulator entries or the new
detection. -/
theorem upsert_mem {acc : List Detection} {d x : Detection}
    (h : x ∈ upsertDetection acc d) : x ∈ acc ∨ x = d := by
  unfold upsertDetection at h
  by_cases hc : acc.any (fun e => e.model == d.model) = true
  · rw [if_pos hc] at h
    obtain ⟨e, he, hex⟩ := List.mem_map.mp h
    by_cases hrep : (e.model == d.model && decide (e.vram < d.vram)) = true
    · rw [if_pos hrep] at hex
      exact Or.inr hex.symm
    · rw [if_neg hrep] at hex
      exact Or.inl (hex ▸ he)
  · rw [if_neg hc] at h
    rcases List.mem_append.mp h with h | h
    · exact Or.inl h
    · exact Or.inr (by simpa using h)

/-- Helper: an upsert keeps the model names pairwise distinct. -/
theorem upsert_models_nodup {acc : List Detection} {d : Detection}
    (h : (acc.map Detection.model).Nodup) :
    ((upsertDetection acc d).map Detection.model).Nodup := by
  unfold upsertDetection
  by_cases hc : acc.any (fun e => e.model == d.model) = true
  · rw [if_pos hc]
    have hmap : ((acc.map fun e =>
        if e.model == d.model && decide (e.vram < d.vram) then d else e).map
          Detection.model) = acc.map Detection.model := by
      rw [List.map_map]
      refine List.map_congr_left ?_
      intro e _
      simp only [Function.comp_apply]
      by_cases hrep : (e.model == d.model && decide (e.vram < d.vram)) = true
      · rw [if_pos hrep]
        have h2 : (e.model == d.model) = true := by
          simp only [Bool.and_eq_true] at hrep
          exact hrep.1
        exact (eq_of_beq h2).symm
      · rw [if_neg hrep]
    rw [hmap]
    exact h
  · rw [if_neg hc]
    rw [List.map_append, List.nodup_append]
    refine ⟨h, List.nodup_singleton _, ?_⟩
    intro x hx hx2
    have hxd : x = d.model := by simpa using hx2
    obtain ⟨e, he, hex⟩ := List.mem_map.mp hx
    apply hc
    refine List.any_eq_true.mpr ⟨e, he, ?_⟩
    have : e.model = d.model := by rw [hex, hxd]
    exact beq_iff_eq.mpr this

/-- Helper: an upsert keeps a dominating representative of every accumulator
entry. -/
theorem upsert_covers_acc {acc : List Detection} {d b : Detection} (hb : b ∈ acc) :
    ∃ e ∈ upsertDetection acc d, e.model = b.model ∧ b.vram ≤ e.vram := by
  unfold upsertDetection
  by_cases hc : acc.any (fun e => e.model == d.model) = true
  · rw [if_pos hc]
    refine ⟨if b.model == d.model && decide (b.vram < d.vram) then d else b,
      List.mem_map.mpr ⟨b, hb, rfl⟩, ?_, ?_⟩
    · by_cases hrep : (b.model == d.model && decide (b.vram < d.vram)) = true
      · rw [if_pos hrep]
        have h2 : (b.model == d.model) = true := by
          simp only [Bool.and_eq_true] at hrep
          exact hrep.1
        exact (eq_of_beq h2).symm
      · rw [if_neg hrep]
    · by_cases hrep : (b.model == d.model && decide (b.vram < d.vram)) = true
      · rw [if_pos hrep]
        have h2 : decide (b.vram < d.vram) = true := by
          simp only [Bool.and_eq_true] at hrep
          exact hrep.2
        exact le_of_lt (of_decide_eq_true h2)
      · rw [if_neg hrep]
  · rw [if_neg hc]
    exact ⟨b, List.mem_append.mpr (Or.inl hb), rfl, le_refl _⟩

/-- Helper: an upsert gives the new detection a dominating representative. -/
theorem upsert_covers_self (acc : List Detection) (d : Detection) :
    ∃ e ∈ upsertDetection acc d, e.model = d.model ∧ d.vram ≤ e.vram := by
  unfold upsertDetection
  by_cases hc : acc.any (fun e => e.model == d.model) = true
  · rw [if_pos hc]
    obtain ⟨a, ha, hamod⟩ := List.any_eq_true.mp hc
    refine ⟨if a.model == d.model && decide (a.vram < d.vram) then d else a,
      List.mem_map.mpr ⟨a, ha, rfl⟩, ?_⟩
    by_cases hrep : decide (a.vram < d.vram) = true
    · have hcond : (a.model == d.model && decide (a.vram < d.vram)) = true := by
        rw [hamod, hrep]
        rfl
      rw [if_pos hcond]
      exact ⟨rfl, le_refl _⟩
    · have hcond : ¬ ((a.model == d.model && decide (a.vram < d.vram)) = true) := by
        intro hco
        simp only [Bool.and_eq_true] at hco
        exact hrep hco.2
      rw [if_neg hcond]
      refine ⟨eq_of_beq hamod, ?_⟩
      exact le_of_not_lt fun hlt => hrep (decide_eq_true hlt)
  · rw [if_neg hc]
    exact ⟨d, List.mem_append.mpr (Or.inr (List.mem_singleton.mpr rfl)), rfl, le_refl _⟩

/-- Helper: the dedup fold keeps model names pairwise distinct. -/
theorem dedup_nodup_aux (l : List Detection) :
    ∀ acc, (acc.map Detection.model).Nodup →
      ((l.foldl upsertDetection acc).map Detection.model).Nodup := by
  induction l with
  | nil => intro acc h; exact h
  | cons d t ih => intro acc h; exact ih _ (upsert_models_nodup h)

/-- Helper: the dedup fold returns only accumulator entries or input
entries. -/
theorem dedup_mem_aux (l : List Detection) :
    ∀ acc x, x ∈ l.foldl upsertDetection acc → x ∈ acc ∨ x ∈ l := by
  induction l with
  | nil => intro acc x h; exact Or.inl h
  | cons d t ih =>
    intro acc x h
    rcases ih (upsertDetection acc d) x h with h2 | h2
    · rcases upsert_mem h2 with h3 | h3
      · exact Or.inl h3
      · refine Or.inr ?_
        rw [h3]
        exact List.mem_cons_self _ _
    · exact Or.inr (List.mem_cons_of_mem _ h2)

/-- Helper: the dedup fold keeps, for every accumulator or input entry, a
representative with the same model name and at least its vram. -/
theorem dedup_covers_aux (l : List Detection) :
    ∀ acc b, (b ∈ acc ∨ b ∈ l) →
      ∃ e ∈ l.foldl upsertDetection acc, e.model = b.model ∧ b.vram ≤ e.vram := by
  induction l with
  | nil =>
    intro acc b hb
    rcases hb with hb | hb
    · exact ⟨b, hb, rfl, le_refl _⟩
    · exact absurd hb (List.not_mem_nil _)
  | cons d t ih =>
    intro acc b hb
    rcases hb with hb | hb
    · obtain ⟨e, he, hem, hev⟩ := upsert_covers_acc (d := d) hb
      obtain ⟨e2, he2, hem2, hev2⟩ := ih (upsertDetection acc d) e (Or.inl he)
      exact ⟨e2, he2, by rw [hem2, hem], le_trans hev hev2⟩
    · rcases List.mem_cons.mp hb with rfl | hbt
      · obtain ⟨e, he, hem, hev⟩ := upsert_covers_self acc b
        obtain ⟨e2, he2, hem2, hev2⟩ := ih (upsertDetection acc b) e (Or.inl he)
        exact ⟨e2, he2, by rw [hem2, hem], le_trans hev hev2⟩
      · exact ih _ b (Or.inr hbt)

/-- C7: in every returned estimation result the detected_models list names
each model at most once, every retained entry is one of the scan's detections,
and every detection of the scan has a retained entry of the same name with at
least its vram — so the kept entry has the largest vram of its name. -/
theorem claim_C7 (p : Project) (res : EstimationResult)
    (h : estimate_vram_usage_detailed p = some res) :
    (res.detected_models.map Detection.model).Nodup ∧
    (∀ d ∈ res.detected_models, d ∈ allDetections p) ∧
    (∀ d ∈ allDetections p, ∃ e ∈ res.detected_models,
      e.model = d.model ∧ d.vram ≤ e.vram) := by
  have hdm : res.detected_models = dedupModels (allDetections p) := by
    unfold estimate_vram_usage_detailed at h
    by_cases hz : maxVram (allDetections p) = 0
    · rw [if_pos hz] at h
      cases h
    · rw [if_neg hz] at h
      injection h with h2
      rw [← h2]
  rw [hdm]
  refine ⟨dedup_nodup_aux _ [] (by simp), ?_, ?_⟩
  · intro d hd
    rcases dedup_mem_aux _ [] d hd with h2 | h2
    · exact absurd h2 (List.not_mem_nil _)
    · exact h2
  · intro d hd
    exact dedup_covers_aux _ [] d (Or.inr hd)

/-- C7 witness: the dedup invariants at the stable-diffusion example project,
whose result retains the single Stable Diffusion 1.5 detection. -/
theorem claim_C7_witness :
    (([(⟨"Stable Diffusion 1.5", 6, "app.py"⟩ : Detection)].map Detection.model).Nodup ∧
      (∀ d ∈ [(⟨"Stable Diffusion 1.5", 6, "app.py"⟩ : Detection)],
        d ∈ allDetections sdExampleProject) ∧
      (∀ d ∈ allDetections sdExampleProject,
        ∃ e ∈ [(⟨"Stable Diffusion 1.5", 6, "app.py"⟩ : Detection)],
          e.model = d.model ∧ d.vram ≤ e.vram)) :=
  claim_C7 sdExampleProject ⟨9, 6, [⟨"Stable Diffusion 1.5", 6, "app.py"⟩], []⟩
    (by decide)

end BrevLauncher
